import Mathlib

/-!
Shallow embedding of the template engine in `ztp/internal/template.go`
(`TemplateBuilder` / `Template` and the three function extensions
`base64`, `execute`, `json`), together with proofs about the claims of
the specification.

Modelling conventions:
* Go byte slices are `List Nat` with every element below 256.
* Go strings are Lean `String`s; their UTF-8 bytes are computed by
  `utf8Bytes`.
* The dynamic Go value (`any`) passed to `Execute` and to the template
  functions is the inductive `Value` below.
* Writers never fail: a destination writer is a `String` accumulator.
* The external `text/template` parser is abstracted by `TplText`: a file
  either parses to a body (a list of nodes) or is rejected with a
  diagnostic.  Execution of parsed bodies is modelled directly.
-/

namespace ZtpTemplate

/-- Comparison of characters by code point, used for byte-wise string order. -/
def charLt (a b : Char) : Bool := a.toNat < b.toNat

/-- Lexicographic order on character lists (byte-wise string comparison). -/
def charListLt : List Char → List Char → Bool
  | [], [] => false
  | [], _ :: _ => true
  | _ :: _, [] => false
  | a :: as, b :: bs => charLt a b || (a == b && charListLt as bs)

/-- Byte-wise string order, as Go's `sort.Strings` / map-key ordering uses. -/
def strLt (a b : String) : Bool := charListLt a.data b.data

/-- UTF-8 encoding of a single code point. -/
def utf8Char (n : Nat) : List Nat :=
  if n < 0x80 then [n]
  else if n < 0x800 then [0xC0 + n / 64, 0x80 + n % 64]
  else if n < 0x10000 then [0xE0 + n / 4096, 0x80 + (n / 64) % 64, 0x80 + n % 64]
  else [0xF0 + n / 0x40000, 0x80 + (n / 4096) % 64, 0x80 + (n / 64) % 64, 0x80 + n % 64]

/-- UTF-8 bytes of a string, as Go's `[]byte(s)` conversion produces. -/
def utf8Bytes (s : String) : List Nat := (s.data.map (fun c => utf8Char c.toNat)).flatten

/-- Character of the standard Base64 alphabet at a given index. -/
def b64Char (n : Nat) : Char :=
  "ABCDEFGHIJKLMNOPQRSTUVWXYZabcdefghijklmnopqrstuvwxyz0123456789+/".data.getD n 'A'

/-- Index of a character in the standard Base64 alphabet. -/
def b64Val (c : Char) : Nat :=
  "ABCDEFGHIJKLMNOPQRSTUVWXYZabcdefghijklmnopqrstuvwxyz0123456789+/".data.indexOf c

/-- Standard Base64 (RFC 4648, with `=` padding, no line wrapping), as
`encoding/base64.StdEncoding.EncodeToString` produces. -/
def base64Encode : List Nat → String
  | [] => ""
  | [b1] => String.mk [b64Char (b1 / 4), b64Char (b1 % 4 * 16), '=', '=']
  | [b1, b2] =>
    String.mk [b64Char (b1 / 4), b64Char (b1 % 4 * 16 + b2 / 16), b64Char (b2 % 16 * 4), '=']
  | b1 :: b2 :: b3 :: rest =>
    String.mk [b64Char (b1 / 4), b64Char (b1 % 4 * 16 + b2 / 16),
               b64Char (b2 % 16 * 4 + b3 / 64), b64Char (b3 % 64)] ++ base64Encode rest

/-- Decoder for standard Base64, used to state that `base64Encode` really is
the (injective) Base64 encoding. -/
def b64DecodeChars : List Char → List Nat
  | c1 :: c2 :: c3 :: c4 :: rest =>
    if c3 = '=' then [b64Val c1 * 4 + b64Val c2 / 16]
    else if c4 = '=' then
      [b64Val c1 * 4 + b64Val c2 / 16, b64Val c2 % 16 * 16 + b64Val c3 / 4]
    else
      [b64Val c1 * 4 + b64Val c2 / 16, b64Val c2 % 16 * 16 + b64Val c3 / 4,
       b64Val c3 % 4 * 64 + b64Val c4] ++ b64DecodeChars rest
  | _ => []

/-- Base64 decoding of a string. -/
def base64Decode (s : String) : List Nat := b64DecodeChars s.data

/-- Join strings with a comma, as in a JSON array/object body. -/
def joinComma : List String → String
  | [] => ""
  | [s] => s
  | s :: rest => s ++ "," ++ joinComma rest

/-- Join strings with a space, as in Go's `fmt` rendering of composites. -/
def joinSpace : List String → String
  | [] => ""
  | [s] => s
  | s :: rest => s ++ " " ++ joinSpace rest

/-- Lowercase hexadecimal digit. -/
def hexDigit (n : Nat) : Char := "0123456789abcdef".data.getD n '0'

/-- Escaping of one character inside a JSON string, following Go's
`encoding/json` encoder (which also escapes `<`, `>`, `&`, U+2028, U+2029). -/
def jsonEscapeChar (c : Char) : List Char :=
  if c = '"' then ['\\', '"']
  else if c = '\\' then ['\\', '\\']
  else if c = '\n' then ['\\', 'n']
  else if c = '\r' then ['\\', 'r']
  else if c = '\t' then ['\\', 't']
  else if c = '<' then ['\\', 'u', '0', '0', '3', 'c']
  else if c = '>' then ['\\', 'u', '0', '0', '3', 'e']
  else if c = '&' then ['\\', 'u', '0', '0', '2', '6']
  else if c.toNat < 0x20 then ['\\', 'u', '0', '0', hexDigit (c.toNat / 16), hexDigit (c.toNat % 16)]
  else if c.toNat = 0x2028 then ['\\', 'u', '2', '0', '2', '8']
  else if c.toNat = 0x2029 then ['\\', 'u', '2', '0', '2', '9']
  else [c]

/-- JSON string literal for a string value, surrounding quotes included. -/
def jsonQuote (s : String) : String :=
  String.mk ('"' :: (s.data.map jsonEscapeChar).flatten ++ ['"'])

mutual
/-- Model of the dynamic Go value (`any`) handed to `Execute` and to the
template functions: scalars, byte slices, strings, values implementing
`fmt.Stringer` (carrying the result of `String()` and the underlying value
seen by `encoding/json`), slices, string-keyed maps, and values of types the
`encoding/json` package cannot serialize (functions, channels, ...). -/
inductive Value where
  | vNull
  | vBool (b : Bool)
  | vNum (n : Int)
  | vStr (s : String)
  | vBytes (bs : List Nat)
  | vStringer (str : String) (inner : Value)
  | vList (xs : VList)
  | vMap (fields : VFields)
  | vOpaque (goType : String)
deriving DecidableEq, Repr

/-- List of dynamic values (a Go slice). -/
inductive VList where
  | nil
  | cons (head : Value) (tail : VList)
deriving DecidableEq, Repr

/-- String-keyed fields of a Go map value. -/
inductive VFields where
  | nil
  | cons (key : String) (val : Value) (tail : VFields)
deriving DecidableEq, Repr
end

/-- Name of the Go dynamic type of a value, as `%T` formats it. -/
def typeName : Value → String
  | .vNull => "<nil>"
  | .vBool _ => "bool"
  | .vNum _ => "int"
  | .vStr _ => "string"
  | .vBytes _ => "[]uint8"
  | .vStringer _ _ => "fmt.Stringer"
  | .vList _ => "[]interface \x7b\x7d"
  | .vMap _ => "map[string]interface \x7b\x7d"
  | .vOpaque goType => goType

mutual
/-- Rendering of a value written by a template action, following Go's
`fmt`-style printing (`Stringer` values print via `String()`). -/
def printValue : Value → String
  | .vNull => "<nil>"
  | .vBool b => cond b "true" "false"
  | .vNum n => toString n
  | .vStr s => s
  | .vBytes bs => "[" ++ joinSpace (bs.map toString) ++ "]"
  | .vStringer s _ => s
  | .vList xs => "[" ++ joinSpace (printVList xs) ++ "]"
  | .vMap fs => "map[" ++ joinSpace (printVFields fs) ++ "]"
  | .vOpaque goType => goType

/-- Printed forms of the elements of a slice value. -/
def printVList : VList → List String
  | .nil => []
  | .cons v r => printValue v :: printVList r

/-- Printed `key:value` forms of the fields of a map value. -/
def printVFields : VFields → List String
  | .nil => []
  | .cons k v r => (k ++ ":" ++ printValue v) :: printVFields r
end

/-- Ordered insertion of a marshalled `(key, text)` pair by key. -/
def insertKV (kv : String × String) : List (String × String) → List (String × String)
  | [] => [kv]
  | kv2 :: rest => if strLt kv.1 kv2.1 then kv :: kv2 :: rest else kv2 :: insertKV kv rest

/-- Sort marshalled map fields by key, as `encoding/json` emits map keys in
sorted order. -/
def insortKV : List (String × String) → List (String × String)
  | [] => []
  | kv :: rest => insertKV kv (insortKV rest)

mutual
/-- Model of `encoding/json.Marshal`: serializes a value to JSON text or
fails (with the offending Go type name) on unserializable values.  Byte
slices marshal to Base64 strings, `Stringer` values marshal through their
underlying value, map keys are emitted in sorted order. -/
def marshalValue : Value → Except String String
  | .vNull => .ok "null"
  | .vBool b => .ok (cond b "true" "false")
  | .vNum n => .ok (toString n)
  | .vStr s => .ok (jsonQuote s)
  | .vBytes bs => .ok (String.mk ('"' :: (base64Encode bs).data ++ ['"']))
  | .vStringer _ inner => marshalValue inner
  | .vList xs =>
    match marshalVList xs with
    | .error e => .error e
    | .ok parts => .ok ("[" ++ joinComma parts ++ "]")
  | .vMap fs =>
    match marshalVFields fs with
    | .error e => .error e
    | .ok kvs =>
      .ok ("\x7b" ++ joinComma ((insortKV kvs).map (fun kv => jsonQuote kv.1 ++ ":" ++ kv.2)) ++ "\x7d")
  | .vOpaque goType => .error goType

/-- Marshalled elements of a slice value. -/
def marshalVList : VList → Except String (List String)
  | .nil => .ok []
  | .cons v r =>
    match marshalValue v with
    | .error e => .error e
    | .ok s =>
      match marshalVList r with
      | .error e => .error e
      | .ok rest => .ok (s :: rest)

/-- Marshalled `(key, text)` pairs of the fields of a map value. -/
def marshalVFields : VFields → Except String (List (String × String))
  | .nil => .ok []
  | .cons k v r =>
    match marshalValue v with
    | .error e => .error e
    | .ok s =>
      match marshalVFields r with
      | .error e => .error e
      | .ok rest => .ok ((k, s) :: rest)
end

mutual
/-- Serializability of a value: everything except (values containing)
`vOpaque`, mirroring which Go values `encoding/json.Marshal` accepts. -/
def serializableValue : Value → Bool
  | .vNull => true
  | .vBool _ => true
  | .vNum _ => true
  | .vStr _ => true
  | .vBytes _ => true
  | .vStringer _ inner => serializableValue inner
  | .vList xs => serializableVList xs
  | .vMap fs => serializableVFields fs
  | .vOpaque _ => false

/-- Serializability of every element of a slice value. -/
def serializableVList : VList → Bool
  | .nil => true
  | .cons v r => serializableValue v && serializableVList r

/-- Serializability of every field of a map value. -/
def serializableVFields : VFields → Bool
  | .nil => true
  | .cons _ v r => serializableValue v && serializableVFields r
end

mutual
/-- Errors surfaced by template execution. `noTemplate` is the engine's
"no template X associated with template Y" lookup failure, `funcErr` is
"error calling f: ...", `typeMismatch` is a wrong argument type for a
function call, and `outOfFuel` stands for exhausting the nesting budget
(the modelled call stack). -/
inductive ExecError where
  | noTemplate (name : String)
  | funcErr (fn : String) (e : FuncError)
  | typeMismatch (fn : String)
  | outOfFuel
deriving DecidableEq, Repr

/-- Failure of one template function call: an error the function returned
(`unsupportedType` from `base64Func`, `serializationErr` from `jsonFunc`,
`nested` from `executeFunc` propagating a nested render error), or a panic
that the engine's `safeCall` recovered into an error (`recovered`). -/
inductive FuncError where
  | unsupportedType (goType : String)
  | serializationErr (goType : String)
  | nested (e : ExecError)
  | recovered (msg : String)
deriving DecidableEq, Repr
end

/-- Outcome of invoking one registered template function: a returned string,
a returned error, or a panic escaping the function. -/
inductive FuncOutcome where
  | ok (s : String)
  | err (e : FuncError)
  | panicked (msg : String)
deriving DecidableEq, Repr

/-- Model of `text/template`'s `safeCall`: a function's returned error is
passed through and a panic raised during the call is recovered and turned
into an error. -/
def safeCall : FuncOutcome → Except FuncError String
  | .ok s => .ok s
  | .err e => .error e
  | .panicked msg => .error (.recovered msg)

/-- Model of `Template.base64Func` (template.go): byte slices encode
directly, strings encode their UTF-8 bytes, `fmt.Stringer` values encode the
UTF-8 bytes of `String()`, anything else is an unsupported-type error. -/
def base64Func : Value → FuncOutcome
  | .vBytes bs => .ok (base64Encode bs)
  | .vStr s => .ok (base64Encode (utf8Bytes s))
  | .vStringer s _ => .ok (base64Encode (utf8Bytes s))
  | v => .err (.unsupportedType (typeName v))

/-- Model of `Template.jsonFunc` (template.go): serializes the value with
`json.Marshal` and returns the text, propagating a marshalling failure. -/
def jsonFunc (v : Value) : FuncOutcome :=
  match marshalValue v with
  | .ok s => .ok s
  | .error goType => .err (.serializationErr goType)

/-- Parsed form of one template action pipeline, as `text/template` parses
it: the input value `.`, a string literal, or a call of one of the three
registered functions (a pipe stage `a | f` parses as the call `f a`). -/
inductive TplExpr where
  | dot
  | lit (s : String)
  | base64Of (arg : TplExpr)
  | executeOf (nameArg : TplExpr) (dataArg : TplExpr)
  | jsonOf (arg : TplExpr)
deriving DecidableEq, Repr

/-- Parsed node of a template body: literal text or an action. -/
inductive Node where
  | text (s : String)
  | action (e : TplExpr)
deriving DecidableEq, Repr

/-- Content of a source file, abstracted by the outcome of the external
`text/template` parser on it: either it compiles to a body or the parser
rejects it with a diagnostic. -/
inductive TplText where
  | valid (body : List Node)
  | invalid (diag : String)
deriving DecidableEq, Repr

mutual
/-- Entry of the source filesystem tree (`fs.FS`): a regular file with its
content, or a directory with its named entries.  Entries are kept in the
order `fs.ReadDir` reports them (sorted, distinct names — see `wfList`). -/
inductive FSEntry where
  | file (content : TplText)
  | dir (entries : FSList)
deriving DecidableEq, Repr

/-- Named entries of one directory. -/
inductive FSList where
  | nil
  | cons (name : String) (entry : FSEntry) (rest : FSList)
deriving DecidableEq, Repr
end

/-- Entry of a directory listing with a given name. -/
def lookupEntry (n : String) : FSList → Option FSEntry
  | .nil => none
  | .cons m e r => if n = m then some e else lookupEntry n r

/-- Membership of a named entry in a directory listing. -/
def entryMem (n : String) (e : FSEntry) : FSList → Prop
  | .nil => False
  | .cons m e2 r => (n = m ∧ e = e2) ∨ entryMem n e r

/-- Name present among the entries of a directory listing. -/
def memName (n : String) : FSList → Bool
  | .nil => false
  | .cons m _ r => n == m || memName n r

/-- Valid filesystem entry name: nonempty, not ".", containing no slash
(as `fs.ValidPath` requires of path elements). -/
def wfNameB (n : String) : Bool := n ≠ "" && n ≠ "." && '/' ∉ n.data

mutual
/-- Wellformed source tree: every directory listing has valid, distinct
entry names, as a real directory listing read through `fs.ReadDir` does. -/
def wfEntry : FSEntry → Bool
  | .file _ => true
  | .dir l => wfList l

/-- Wellformedness of a directory listing. -/
def wfList : FSList → Bool
  | .nil => true
  | .cons n e r => wfNameB n && !memName n r && wfEntry e && wfList r
end

mutual
/-- Component paths of the regular files visited by
`fs.WalkDir(fsys, ".")` in `findFiles` (template.go): depth-first, in
listing order, directories excluded, `[]` denoting the root itself. -/
def walkPaths : FSEntry → List (List String)
  | .file _ => [[]]
  | .dir l => walkPathsList l

/-- File paths collected under each entry of a directory listing. -/
def walkPathsList : FSList → List (List String)
  | .nil => []
  | .cons n e r => (walkPaths e).map (fun p => n :: p) ++ walkPathsList r
end

/-- Model of `fs.ReadFile`: follow a component path to a regular file. -/
def readFile : FSEntry → List String → Option TplText
  | .file c, [] => some c
  | .file _, _ :: _ => none
  | .dir _, [] => none
  | .dir l, n :: rest =>
    match lookupEntry n l with
    | none => none
    | some e => readFile e rest

/-- Model of `fs.Sub` plus the walk-root lookup: narrow a tree to the
subtree named by a component path (`[]` meaning no narrowing). -/
def navigate : FSEntry → List String → Option FSEntry
  | e, [] => some e
  | .file _, _ :: _ => none
  | .dir l, n :: rest =>
    match lookupEntry n l with
    | none => none
    | some e => navigate e rest

/-- Relative path string registered for a file, as `fs.WalkDir` reports it:
components joined with "/", the bare root reported as ".". -/
def joinPath : List String → String
  | [] => "."
  | [c] => c
  | c :: rest => c ++ "/" ++ joinPath rest

/-- Model of `logr.Logger`: a sink (possibly absent, as in the zero value)
and a verbosity level.  `Build` only ever inspects the sink. -/
structure Logger where
  sink : Option Unit := none
  v : Nat := 0
deriving DecidableEq, Repr

/-- Model of `logr.Logger.GetSink`. -/
def Logger.GetSink (l : Logger) : Option Unit := l.sink

/-- Model of `TemplateBuilder` (template.go): logger, filesystem and
optional sub-directory (`[]` meaning the unset ""). -/
structure TemplateBuilder where
  logger : Logger := {}
  fsys : Option FSEntry := none
  dir : List String := []
deriving DecidableEq, Repr

/-- Model of `NewTemplate`: a builder with everything unset. -/
def NewTemplate : TemplateBuilder := {}

/-- Model of `TemplateBuilder.SetLogger`. -/
def SetLogger (b : TemplateBuilder) (value : Logger) : TemplateBuilder :=
  { b with logger := value }

/-- Model of `TemplateBuilder.SetFS`. -/
def SetFS (b : TemplateBuilder) (value : FSEntry) : TemplateBuilder :=
  { b with fsys := some value }

/-- Model of `TemplateBuilder.SetDir`. -/
def SetDir (b : TemplateBuilder) (value : List String) : TemplateBuilder :=
  { b with dir := value }

/-- Errors returned by `Build`: missing mandatory configuration, a
filesystem (sub-tree/walk/read) failure, or a parse failure carrying the
offending unit's name and the parser diagnostic. -/
inductive BuildError where
  | configuration (msg : String)
  | fsErr
  | parseErr (name : String) (diag : String)
deriving DecidableEq, Repr

/-- Model of the built `Template` (template.go): the logger, the discovered
names in discovery order, and the shared namespace of parsed units keyed by
name (the associated templates of `t.template`). -/
structure Template where
  logger : Logger
  names : List String
  units : List (String × List Node)
deriving DecidableEq, Repr

/-- Lookup of a parsed unit in the shared namespace
(`t.template.Lookup(name)`). -/
def lookupUnit : List (String × List Node) → String → Option (List Node)
  | [], _ => none
  | (k, ast) :: rest, name => if k = name then some ast else lookupUnit rest name

/-- Model of `Template.parseFile`: read one file and compile it under its
relative path as its name; a parser rejection becomes a `parseErr` carrying
that name and the diagnostic. -/
def parseFile (fsys : FSEntry) (p : List String) : Except BuildError (String × List Node) :=
  match readFile fsys p with
  | none => .error .fsErr
  | some (.invalid diag) => .error (.parseErr (joinPath p) diag)
  | some (.valid body) => .ok (joinPath p, body)

/-- Model of `Template.parseFiles`: parse the discovered files in discovery
order, stopping at the first failure. -/
def parseFiles (fsys : FSEntry) : List (List String) → Except BuildError (List (String × List Node))
  | [] => .ok []
  | p :: rest =>
    match parseFile fsys p with
    | .error e => .error e
    | .ok u =>
      match parseFiles fsys rest with
      | .error e => .error e
      | .ok us => .ok (u :: us)

/-- Effective source root of a builder: its filesystem, narrowed to the
configured sub-directory when one is set. -/
def effectiveFS (b : TemplateBuilder) : Option FSEntry :=
  match b.fsys with
  | none => none
  | some f => navigate f b.dir

/-- Model of `TemplateBuilder.Build` (template.go): check the mandatory
logger (by `GetSink() == nil`) and filesystem, narrow to the sub-directory,
discover the files, parse them, and return the finished template or the
first error. -/
def Build (b : TemplateBuilder) : Except BuildError Template :=
  if (Logger.GetSink b.logger).isNone then .error (.configuration "logger is mandatory")
  else
    match b.fsys with
    | none => .error (.configuration "filesystem is mandatory")
    | some f =>
      match navigate f b.dir with
      | none => .error .fsErr
      | some fsys =>
        match parseFiles fsys (walkPaths fsys) with
        | .error e => .error e
        | .ok units =>
          .ok { logger := b.logger, names := (walkPaths fsys).map joinPath, units := units }

/-- Element-wise copy of a name list, modelling `slices.Clone`. -/
def cloneList : List String → List String
  | [] => []
  | x :: r => x :: cloneList r

/-- Model of `Template.Names`: a copy of the registered names. -/
def Template.Names (t : Template) : List String := cloneList t.names

/-- One template-execution engine level.  `evalExprA` evaluates one action
pipeline; the `nested` argument is the `execute` function at the current
call depth. -/
def evalExprA (nested : String → Value → FuncOutcome) (data : Value) :
    TplExpr → Except ExecError Value
  | .dot => .ok data
  | .lit s => .ok (.vStr s)
  | .base64Of a =>
    match evalExprA nested data a with
    | .error e => .error e
    | .ok v =>
      match safeCall (base64Func v) with
      | .ok s => .ok (.vStr s)
      | .error fe => .error (.funcErr "base64" fe)
  | .jsonOf a =>
    match evalExprA nested data a with
    | .error e => .error e
    | .ok v =>
      match safeCall (jsonFunc v) with
      | .ok s => .ok (.vStr s)
      | .error fe => .error (.funcErr "json" fe)
  | .executeOf ne de =>
    match evalExprA nested data ne with
    | .error e => .error e
    | .ok nv =>
      match evalExprA nested data de with
      | .error e => .error e
      | .ok dv =>
        match nv with
        | .vStr name =>
          match safeCall (nested name dv) with
          | .ok s => .ok (.vStr s)
          | .error fe => .error (.funcErr "execute" fe)
        | _ => .error (.typeMismatch "execute")

/-- Render a body node by node, left to right, accumulating the text
written so far and stopping at the first failing action: on an error the
first component is the partial output already written to the buffer. -/
def renderNodesA (nested : String → Value → FuncOutcome) (data : Value) :
    List Node → String × Option ExecError
  | [] => ("", none)
  | .text s :: rest =>
    match renderNodesA nested data rest with
    | (out, e) => (s ++ out, e)
  | .action e :: rest =>
    match evalExprA nested data e with
    | .error err => ("", some err)
    | .ok v =>
      match renderNodesA nested data rest with
      | (out, e2) => (printValue v ++ out, e2)

/-- Model of `Template.executeFunc` (template.go) at a given nesting budget:
look the unit up in the shared namespace and render it, returning the
rendered text instead of writing it.  A missing name is NOT checked by the
code: `Lookup` yields nil and calling `Execute` on the nil template panics
with a nil-pointer dereference (which the engine's `safeCall` later
recovers); a nested render error is returned to the engine and wrapped. -/
def executeFunc (t : Template) : Nat → String → Value → FuncOutcome
  | fuel, name, dataV =>
    match lookupUnit t.units name with
    | none => .panicked "invalid memory address or nil pointer dereference"
    | some body =>
      match fuel with
      | 0 => .err (.nested .outOfFuel)
      | fuel' + 1 =>
        match renderNodesA (executeFunc t fuel') dataV body with
        | (_, some e) => .err (.nested e)
        | (out, none) => .ok out

/-- Render a body at a given nesting budget. -/
def renderNodes (fuel : Nat) (t : Template) (data : Value) (body : List Node) :
    String × Option ExecError :=
  renderNodesA (executeFunc t fuel) data body

/-- Model of `text/template`'s `ExecuteTemplate` into a fresh buffer: look
the name up in the shared namespace (failing with the "no template
associated" error) and render the body.  The first component is the content
of the buffer (partial when an error occurred). -/
def Template.executeTemplate (t : Template) (fuel : Nat) (name : String) (data : Value) :
    String × Option ExecError :=
  match lookupUnit t.units name with
  | none => ("", some (.noTemplate name))
  | some body => renderNodes fuel t data body

/-- Model of `Template.Execute` (template.go): render into an internal
buffer first, and only on success copy the whole buffer to the destination
writer; on any error the writer is left untouched. -/
def Template.Execute (t : Template) (fuel : Nat) (writer : String) (name : String)
    (data : Value) : Option ExecError × String :=
  match t.executeTemplate fuel name data with
  | (_, some e) => (some e, writer)
  | (out, none) => (none, writer ++ out)

/-- Specification-side notion of reachability: the component path of a
regular file reachable from a root entry. -/
inductive ReachesFile : FSEntry → List String → Prop where
  | file (c : TplText) : ReachesFile (.file c) []
  | dir (l : FSList) (n : String) (e : FSEntry) (p : List String) :
      entryMem n e l → ReachesFile e p → ReachesFile (.dir l) (n :: p)

/-- Heap of string-slice backing arrays, used to model Go slice aliasing for
the `Names` snapshot claim. -/
structure SliceHeap where
  cells : List (List String)
deriving DecidableEq, Repr

/-- Allocate a fresh backing array. -/
def halloc (h : SliceHeap) (xs : List String) : SliceHeap × Nat :=
  (⟨h.cells ++ [xs]⟩, h.cells.length)

/-- Read a backing array by reference. -/
def hread (h : SliceHeap) (r : Nat) : List String := h.cells.getD r []

/-- Overwrite a backing array in place. -/
def hwrite (h : SliceHeap) (r : Nat) (xs : List String) : SliceHeap :=
  ⟨h.cells.set r xs⟩

/-- `Names` at the heap level: `slices.Clone` copies the template's name
array element-wise into a freshly allocated backing array and returns a
reference to the fresh array. -/
def namesAlloc (h : SliceHeap) (tref : Nat) : SliceHeap × Nat :=
  halloc h (cloneList (hread h tref))

/-! Concrete source trees, builders and built templates used as witnesses. -/

/-- Working logger (one whose sink is present). -/
def okLogger : Logger := { sink := some () }

/-- Tree with one trivial unit, for exercising unknown-name lookups. -/
def c1Tree : FSEntry := .dir (.cons "greeting.tmpl" (.file (.valid [.text "hello"])) .nil)

/-- Builder over `c1Tree`. -/
def c1Builder : TemplateBuilder := SetFS (SetLogger NewTemplate okLogger) c1Tree

/-- Template built from `c1Tree`. -/
def c1Template : Template :=
  { logger := okLogger, names := ["greeting.tmpl"],
    units := [("greeting.tmpl", [.text "hello"])] }

/-- Tree whose only unit executes a non-existent unit name. -/
def c2Tree : FSEntry :=
  .dir (.cons "outer.tmpl"
    (.file (.valid [.text "A", .action (.executeOf (.lit "missing.tmpl") .dot)])) .nil)

/-- Builder over `c2Tree`. -/
def c2Builder : TemplateBuilder := SetFS (SetLogger NewTemplate okLogger) c2Tree

/-- Template built from `c2Tree`. -/
def c2Template : Template :=
  { logger := okLogger, names := ["outer.tmpl"],
    units := [("outer.tmpl", [.text "A", .action (.executeOf (.lit "missing.tmpl") .dot)])] }

/-- Tree with a unit that renders fine and a unit that fails after writing
some text into the render buffer. -/
def c3Tree : FSEntry :=
  .dir (.cons "bad.tmpl"
    (.file (.valid [.text "A", .action (.executeOf (.lit "missing.tmpl") .dot)]))
    (.cons "good.tmpl" (.file (.valid [.text "fine"])) .nil))

/-- Builder over `c3Tree`. -/
def c3Builder : TemplateBuilder := SetFS (SetLogger NewTemplate okLogger) c3Tree

/-- Template built from `c3Tree`. -/
def c3Template : Template :=
  { logger := okLogger, names := ["bad.tmpl", "good.tmpl"],
    units := [("bad.tmpl", [.text "A", .action (.executeOf (.lit "missing.tmpl") .dot)]),
              ("good.tmpl", [.text "fine"])] }

/-- Nested tree for the discovery claim. -/
def c4Tree : FSEntry :=
  .dir (.cons "a"
          (.dir (.cons "x.tmpl" (.file (.valid [.text "x"]))
                (.cons "y.tmpl" (.file (.valid [.text "y"])) .nil)))
        (.cons "b.tmpl" (.file (.valid [.text "b"])) .nil))

/-- Builder over `c4Tree`. -/
def c4Builder : TemplateBuilder := SetFS (SetLogger NewTemplate okLogger) c4Tree

/-- Template built from `c4Tree`. -/
def c4Template : Template :=
  { logger := okLogger, names := ["a/x.tmpl", "a/y.tmpl", "b.tmpl"],
    units := [("a/x.tmpl", [.text "x"]), ("a/y.tmpl", [.text "y"]),
              ("b.tmpl", [.text "b"])] }

/-- Tree whose second file fails to parse; a third file follows it. -/
def c6Tree : FSEntry :=
  .dir (.cons "a.tmpl" (.file (.valid [.text "ok"]))
       (.cons "bad.tmpl" (.file (.invalid "unexpected EOF"))
       (.cons "c.tmpl" (.file (.valid [.text "later"])) .nil)))

/-- Builder over `c6Tree`. -/
def c6Builder : TemplateBuilder := SetFS (SetLogger NewTemplate okLogger) c6Tree

/-- Tree with one unit whose body is the action `base64 "hello"`. -/
def c7Tree : FSEntry :=
  .dir (.cons "hello.tmpl" (.file (.valid [.action (.base64Of (.lit "hello"))])) .nil)

/-- Builder over `c7Tree`. -/
def c7Builder : TemplateBuilder := SetFS (SetLogger NewTemplate okLogger) c7Tree

/-- Template built from `c7Tree`. -/
def c7Template : Template :=
  { logger := okLogger, names := ["hello.tmpl"],
    units := [("hello.tmpl", [.action (.base64Of (.lit "hello"))])] }

/-- Tree with an outer unit piping `execute "inner.tmpl" .` into `base64`
and an inner unit rendering to "hi". -/
def composeTree : FSEntry :=
  .dir (.cons "inner.tmpl" (.file (.valid [.text "hi"]))
       (.cons "outer.tmpl"
          (.file (.valid [.action (.base64Of (.executeOf (.lit "inner.tmpl") .dot))])) .nil))

/-- Builder over `composeTree`. -/
def composeBuilder : TemplateBuilder := SetFS (SetLogger NewTemplate okLogger) composeTree

/-- Template built from `composeTree`. -/
def composeTemplate : Template :=
  { logger := okLogger, names := ["inner.tmpl", "outer.tmpl"],
    units := [("inner.tmpl", [.text "hi"]),
              ("outer.tmpl", [.action (.base64Of (.executeOf (.lit "inner.tmpl") .dot))])] }

/-- Tree with one unit whose body is the action `json .`. -/
def c9Tree : FSEntry :=
  .dir (.cons "doc.tmpl" (.file (.valid [.action (.jsonOf .dot)])) .nil)

/-- Builder over `c9Tree`. -/
def c9Builder : TemplateBuilder := SetFS (SetLogger NewTemplate okLogger) c9Tree

/-- Template built from `c9Tree`. -/
def c9Template : Template :=
  { logger := okLogger, names := ["doc.tmpl"],
    units := [("doc.tmpl", [.action (.jsonOf .dot)])] }

/-! Shared lemmas. -/

theorem cloneList_eq (xs : List String) : cloneList xs = xs := by
  induction xs with
  | nil => rfl
  | cons x r ih => simp [cloneList, ih]

theorem parseFile_ok_key (fsys : FSEntry) (p : List String) (u : String × List Node)
    (h : parseFile fsys p = .ok u) : u.1 = joinPath p := by
  unfold parseFile at h
  cases hc : readFile fsys p with
  | none => rw [hc] at h; cases h
  | some txt =>
    rw [hc] at h
    cases txt with
    | invalid d => cases h
    | valid body => injection h with h; subst h; rfl

theorem parseFiles_keys (fsys : FSEntry) (ps : List (List String))
    (units : List (String × List Node)) (h : parseFiles fsys ps = .ok units) :
    units.map Prod.fst = ps.map joinPath := by
  induction ps generalizing units with
  | nil =>
    unfold parseFiles at h
    injection h with h
    subst h
    rfl
  | cons p rest ih =>
    unfold parseFiles at h
    cases hp : parseFile fsys p with
    | error e => rw [hp] at h; cases h
    | ok u =>
      rw [hp] at h
      cases hr : parseFiles fsys rest with
      | error e => rw [hr] at h; cases h
      | ok us =>
        rw [hr] at h
        injection h with h
        subst h
        simp [ih us hr, parseFile_ok_key fsys p u hp]

theorem lookupUnit_eq_none (units : List (String × List Node)) (name : String)
    (h : name ∉ units.map Prod.fst) : lookupUnit units name = none := by
  induction units with
  | nil => rfl
  | cons u rest ih =>
    simp only [List.map_cons, List.mem_cons] at h
    push_neg at h
    cases u with
    | mk k ast =>
      unfold lookupUnit
      rw [if_neg (fun hk => h.1 hk.symm)]
      exact ih h.2

theorem Build_ok_parts (b : TemplateBuilder) (t : Template) (hb : Build b = .ok t) :
    ∃ f fsys, b.fsys = some f ∧ navigate f b.dir = some fsys ∧
      t.logger = b.logger ∧
      t.names = (walkPaths fsys).map joinPath ∧
      parseFiles fsys (walkPaths fsys) = .ok t.units := by
  unfold Build at hb
  split at hb
  · cases hb
  · split at hb
    next => cases hb
    next f heq =>
      split at hb
      next => cases hb
      next fsys hnav =>
        split at hb
        next => cases hb
        next units hp =>
          injection hb with hb
          subst hb
          exact ⟨f, fsys, heq, hnav, rfl, rfl, hp⟩

/-- C5: building with a missing logger (nil sink) or missing filesystem
always fails with the configuration error, whatever the filesystem and
directory hold: the mandatory-parameter checks run before any discovery,
so the source tree is never traversed. -/
theorem build_missing_mandatory (lg : Logger) (fs : Option FSEntry) (d : List String)
    (h : lg.sink = none ∨ fs = none) :
    Build { logger := lg, fsys := fs, dir := d } =
      .error (.configuration
        (if lg.sink = none then "logger is mandatory" else "filesystem is mandatory")) := by
  rcases h with h | h
  · simp [Build, Logger.GetSink, h]
  · subst h
    cases hs : lg.sink with
    | none => simp [Build, Logger.GetSink, hs]
    | some u => simp [Build, Logger.GetSink, hs]

/-- Witness for C5: a builder with a filesystem but a never-set (sinkless)
logger fails with the configuration error. -/
theorem build_missing_mandatory_witness :
    Build { logger := { sink := none }, fsys := some c1Tree, dir := [] } =
      .error (.configuration "logger is mandatory") :=
  build_missing_mandatory { sink := none } (some c1Tree) [] (Or.inl rfl)

/-- C10: `Build` tests the configured logger's sink for nil, not whether
`SetLogger` was called: setting a zero-value logger (nil sink, any
verbosity) still fails with the configuration error, exactly as if the
logger had never been set. -/
theorem build_rejects_sinkless_logger (b : TemplateBuilder) (zl : Logger)
    (h : zl.sink = none) :
    Build (SetLogger b zl) = .error (.configuration "logger is mandatory") ∧
    Build (SetLogger b zl) = Build { b with logger := NewTemplate.logger } := by
  constructor
  · simp [Build, SetLogger, Logger.GetSink, h]
  · simp [Build, SetLogger, Logger.GetSink, NewTemplate, h]

/-- Witness for C10: a zero-value logger with nonzero verbosity still has a
nil sink, and `Build` rejects it on a builder that has a filesystem. -/
theorem build_rejects_sinkless_logger_witness :
    Build (SetLogger (SetFS NewTemplate c1Tree) { sink := none, v := 7 }) =
      .error (.configuration "logger is mandatory") ∧
    Build (SetLogger (SetFS NewTemplate c1Tree) { sink := none, v := 7 }) =
      Build { SetFS NewTemplate c1Tree with logger := NewTemplate.logger } :=
  build_rejects_sinkless_logger (SetFS NewTemplate c1Tree) { sink := none, v := 7 } rfl

/-- C1: executing a built template under a name that is not the name of any
parsed unit fails with the "no template associated" lookup error and leaves
the destination writer untouched (zero bytes written). -/
theorem execute_unknown_name (b : TemplateBuilder) (t : Template) (fuel : Nat)
    (writer name : String) (data : Value) (hb : Build b = .ok t) (hn : name ∉ t.names) :
    t.Execute fuel writer name data = (some (.noTemplate name), writer) := by
  obtain ⟨f, fsys, hf, hnav, hlg, hnames, hpf⟩ := Build_ok_parts b t hb
  have hkeys : t.units.map Prod.fst = t.names := by
    rw [parseFiles_keys fsys _ _ hpf, hnames]
  have hlk : lookupUnit t.units name = none :=
    lookupUnit_eq_none _ _ (by rw [hkeys]; exact hn)
  unfold Template.Execute Template.executeTemplate
  rw [hlk]

/-- Witness for C1: the single-unit template from `c1Tree` rejects the name
"missing" without writing to the destination. -/
theorem execute_unknown_name_witness :
    c1Template.Execute 4 "sink" "missing" .vNull = (some (.noTemplate "missing"), "sink") :=
  execute_unknown_name c1Builder c1Template 4 "sink" "missing" .vNull rfl (by decide)

/-- C3: `Execute` is all-or-nothing for the destination writer: when any
error occurs the writer is unchanged (even though the internal render
buffer may hold partial output), and on success the writer receives exactly
the complete rendered output. -/
theorem execute_all_or_nothing (t : Template) (fuel : Nat) (writer name : String)
    (data : Value) :
    ((t.Execute fuel writer name data).1.isSome → (t.Execute fuel writer name data).2 = writer) ∧
    ((t.Execute fuel writer name data).1 = none →
      (t.Execute fuel writer name data).2 = writer ++ (t.executeTemplate fuel name data).1) := by
  rcases h : t.executeTemplate fuel name data with ⟨out, e⟩
  cases e with
  | none => simp [Template.Execute, h]
  | some err => simp [Template.Execute, h]

/-- Witness for C3: over `c3Tree`, the failing unit has already written "A"
into the internal buffer when it fails, yet the destination still holds
exactly "w0"; the succeeding unit appends its complete output. -/
theorem execute_all_or_nothing_witness :
    renderNodes 3 c3Template .vNull [.text "A", .action (.executeOf (.lit "missing.tmpl") .dot)]
      = ("A", some (.funcErr "execute"
          (.recovered "invalid memory address or nil pointer dereference"))) ∧
    (c3Template.Execute 3 "w0" "bad.tmpl" .vNull).2 = "w0" ∧
    (c3Template.Execute 3 "w0" "good.tmpl" .vNull).2 =
      "w0" ++ (c3Template.executeTemplate 3 "good.tmpl" .vNull).1 :=
  ⟨rfl,
   (execute_all_or_nothing c3Template 3 "w0" "bad.tmpl" .vNull).1 (by decide),
   (execute_all_or_nothing c3Template 3 "w0" "good.tmpl" .vNull).2 (by decide)⟩

/-- C2 (failing behaviour): `executeFunc` does not check the result of
`Lookup`.  For a unit name absent from the set, `Lookup` yields nil and the
nested `Execute` call dereferences the nil template: the function panics,
and the engine's `safeCall` recovers the panic into a generic execution
error ("error calling execute: runtime error: invalid memory address or nil
pointer dereference") — not a template-lookup ("no template associated")
error as the specification states. -/
theorem execute_missing_unit_recovered_panic :
    Build c2Builder = .ok c2Template ∧
    executeFunc c2Template 2 "missing.tmpl" .vNull =
      .panicked "invalid memory address or nil pointer dereference" ∧
    c2Template.Execute 3 "" "outer.tmpl" .vNull =
      (some (.funcErr "execute"
        (.recovered "invalid memory address or nil pointer dereference")), "") :=
  ⟨rfl, rfl, rfl⟩

/-- C8: composing the function extensions: the unit piping
`execute "inner.tmpl" .` into `base64`, where `inner.tmpl` renders to "hi",
renders exactly "aGk=". -/
theorem compose_execute_base64 :
    Build composeBuilder = .ok composeTemplate ∧
    composeTemplate.executeTemplate 1 "inner.tmpl" .vNull = ("hi", none) ∧
    composeTemplate.Execute 1 "" "outer.tmpl" .vNull = (none, "aGk=") :=
  ⟨rfl, rfl, rfl⟩

theorem parseFiles_append_ok (fsys : FSEntry) (good : List (List String))
    (hgood : ∀ p ∈ good, ∃ body, readFile fsys p = some (.valid body)) :
    ∀ later e, parseFiles fsys later = .error e →
      parseFiles fsys (good ++ later) = .error e := by
  induction good with
  | nil => intro later e h; simpa using h
  | cons p rest ih =>
    intro later e h
    obtain ⟨body, hp⟩ := hgood p (by simp)
    have hrest := ih (fun q hq => hgood q (by simp [hq])) later e h
    simp only [List.cons_append, parseFiles, parseFile, hp]
    rw [show rest.append later = rest ++ later from rfl, hrest]

/-- C6: a file whose text the parser rejects makes the whole build fail
with the parse error carrying that unit's relative path and the parser
diagnostic, and no file after it in discovery order is even looked at: the
same error results whatever paths follow the offending one. -/
theorem build_parse_failfast (b : TemplateBuilder) (f fsys : FSEntry)
    (good : List (List String)) (badPath : List String) (rest : List (List String))
    (diag : String)
    (hsink : b.logger.sink = some ())
    (hf : b.fsys = some f) (hnav : navigate f b.dir = some fsys)
    (hsplit : walkPaths fsys = good ++ badPath :: rest)
    (hgood : ∀ p ∈ good, ∃ body, readFile fsys p = some (.valid body))
    (hbad : readFile fsys badPath = some (.invalid diag)) :
    Build b = .error (.parseErr (joinPath badPath) diag) ∧
    ∀ later : List (List String),
      parseFiles fsys (good ++ badPath :: later) =
        .error (.parseErr (joinPath badPath) diag) := by
  have hfirst : ∀ later : List (List String), parseFiles fsys (badPath :: later) =
      .error (.parseErr (joinPath badPath) diag) := by
    intro later
    simp [parseFiles, parseFile, hbad]
  have hall : ∀ later : List (List String), parseFiles fsys (good ++ badPath :: later) =
      .error (.parseErr (joinPath badPath) diag) :=
    fun later => parseFiles_append_ok fsys good hgood _ _ (hfirst later)
  refine ⟨?_, hall⟩
  simp only [Build, Logger.GetSink, hsink, Option.isNone_some, Bool.false_eq_true, if_false,
    hf, hnav, hsplit, hall rest]

/-- Witness for C6: over `c6Tree` the second file's rejection aborts the
build with its name and diagnostic, and the same error results for
arbitrary (even non-existent) paths following the offending file. -/
theorem build_parse_failfast_witness :
    Build c6Builder = .error (.parseErr "bad.tmpl" "unexpected EOF") ∧
    parseFiles c6Tree ([["a.tmpl"]] ++ ["bad.tmpl"] :: [["x.tmpl"], ["y.tmpl"]]) =
      .error (.parseErr "bad.tmpl" "unexpected EOF") :=
  ⟨(build_parse_failfast c6Builder c6Tree c6Tree [["a.tmpl"]] ["bad.tmpl"] [["c.tmpl"]]
      "unexpected EOF" rfl rfl rfl rfl
      (by intro p hp; simp only [List.mem_singleton] at hp; subst hp; exact ⟨[.text "ok"], rfl⟩)
      rfl).1,
   (build_parse_failfast c6Builder c6Tree c6Tree [["a.tmpl"]] ["bad.tmpl"] [["c.tmpl"]]
      "unexpected EOF" rfl rfl rfl rfl
      (by intro p hp; simp only [List.mem_singleton] at hp; subst hp; exact ⟨[.text "ok"], rfl⟩)
      rfl).2 [["x.tmpl"], ["y.tmpl"]]⟩

theorem b64Val_b64Char : ∀ n, n < 64 → b64Val (b64Char n) = n := by decide

theorem b64Char_ne_pad (n : Nat) : b64Char n ≠ '=' := by
  by_cases h : n < 64
  · revert h
    revert n
    decide
  · unfold b64Char
    rw [List.getD_eq_default]
    · decide
    · have hlen :
        ("ABCDEFGHIJKLMNOPQRSTUVWXYZabcdefghijklmnopqrstuvwxyz0123456789+/").data.length = 64 :=
        rfl
      omega

theorem base64_roundtrip : ∀ bs : List Nat, (∀ b ∈ bs, b < 256) →
    base64Decode (base64Encode bs) = bs
  | [], _ => rfl
  | [b1], h => by
    have hb1 : b1 < 256 := h b1 (by simp)
    show b64DecodeChars [b64Char (b1 / 4), b64Char (b1 % 4 * 16), '=', '='] = [b1]
    rw [b64DecodeChars, if_pos rfl, b64Val_b64Char _ (by omega), b64Val_b64Char _ (by omega)]
    congr 1
    omega
  | [b1, b2], h => by
    have hb1 : b1 < 256 := h b1 (by simp)
    have hb2 : b2 < 256 := h b2 (by simp)
    show b64DecodeChars [b64Char (b1 / 4), b64Char (b1 % 4 * 16 + b2 / 16),
      b64Char (b2 % 16 * 4), '='] = [b1, b2]
    rw [b64DecodeChars, if_neg (b64Char_ne_pad _), if_pos rfl,
      b64Val_b64Char _ (by omega), b64Val_b64Char _ (by omega), b64Val_b64Char _ (by omega)]
    congr 1
    · omega
    · congr 1
      omega
  | b1 :: b2 :: b3 :: rest, h => by
    have hb1 : b1 < 256 := h b1 (by simp)
    have hb2 : b2 < 256 := h b2 (by simp)
    have hb3 : b3 < 256 := h b3 (by simp)
    have ih := base64_roundtrip rest (fun b hb => h b (by simp [hb]))
    show b64DecodeChars
      (String.mk [b64Char (b1 / 4), b64Char (b1 % 4 * 16 + b2 / 16),
        b64Char (b2 % 16 * 4 + b3 / 64), b64Char (b3 % 64)] ++ base64Encode rest).data = _
    rw [String.data_append]
    show b64DecodeChars (b64Char (b1 / 4) :: b64Char (b1 % 4 * 16 + b2 / 16) ::
      b64Char (b2 % 16 * 4 + b3 / 64) :: b64Char (b3 % 64) :: (base64Encode rest).data) = _
    rw [b64DecodeChars, if_neg (b64Char_ne_pad _), if_neg (b64Char_ne_pad _),
      b64Val_b64Char _ (by omega), b64Val_b64Char _ (by omega),
      b64Val_b64Char _ (by omega), b64Val_b64Char _ (by omega)]
    have ih2 : b64DecodeChars (base64Encode rest).data = rest := ih
    rw [ih2]
    simp only [List.cons_append, List.nil_append, List.cons.injEq]
    refine ⟨by omega, by omega, by omega, trivial⟩

/-- C7: the `base64` extension encodes byte slices directly, strings and
`Stringer` values through their UTF-8 bytes, and rejects every other value
with an unsupported-type error; the encoding really is standard Base64
(decoding inverts it), and `base64 "hello"` renders "aGVsbG8=". -/
theorem base64Func_spec :
    (∀ v : Value, base64Func v =
      match v with
      | .vBytes bs => .ok (base64Encode bs)
      | .vStr s => .ok (base64Encode (utf8Bytes s))
      | .vStringer s _ => .ok (base64Encode (utf8Bytes s))
      | _ => .err (.unsupportedType (typeName v))) ∧
    (∀ bs : List Nat, (∀ b ∈ bs, b < 256) → base64Decode (base64Encode bs) = bs) ∧
    Build c7Builder = .ok c7Template ∧
    c7Template.Execute 1 "" "hello.tmpl" .vNull = (none, "aGVsbG8=") := by
  refine ⟨?_, base64_roundtrip, rfl, rfl⟩
  intro v
  cases v <;> rfl

/-- Witness for C7: the round-trip law applied at the bytes of "hello",
together with the concrete encoding. -/
theorem base64Func_spec_witness :
    base64Decode (base64Encode (utf8Bytes "hello")) = utf8Bytes "hello" ∧
    base64Func (.vStr "hello") = .ok "aGVsbG8=" :=
  ⟨base64Func_spec.2.1 (utf8Bytes "hello") (by decide), by decide⟩

mutual
theorem marshalValue_ok_iff (v : Value) :
    (∃ s, marshalValue v = .ok s) ↔ serializableValue v = true := by
  cases v with
  | vNull => simp [marshalValue, serializableValue]
  | vBool b => simp [marshalValue, serializableValue]
  | vNum n => simp [marshalValue, serializableValue]
  | vStr s => simp [marshalValue, serializableValue]
  | vBytes bs => simp [marshalValue, serializableValue]
  | vStringer s inner =>
    simpa [marshalValue, serializableValue] using marshalValue_ok_iff inner
  | vList xs =>
    rw [show serializableValue (.vList xs) = serializableVList xs from rfl,
      ← marshalVList_ok_iff xs]
    cases h : marshalVList xs <;> simp [marshalValue, h]
  | vMap fs =>
    rw [show serializableValue (.vMap fs) = serializableVFields fs from rfl,
      ← marshalVFields_ok_iff fs]
    cases h : marshalVFields fs <;> simp [marshalValue, h]
  | vOpaque goType => simp [marshalValue, serializableValue]

theorem marshalVList_ok_iff (xs : VList) :
    (∃ ls, marshalVList xs = .ok ls) ↔ serializableVList xs = true := by
  cases xs with
  | nil => simp [marshalVList, serializableVList]
  | cons v r =>
    rw [show serializableVList (.cons v r) = (serializableValue v && serializableVList r)
        from rfl,
      Bool.and_eq_true, ← marshalValue_ok_iff v, ← marshalVList_ok_iff r]
    cases h1 : marshalValue v <;> cases h2 : marshalVList r <;>
      simp [marshalVList, h1, h2]

theorem marshalVFields_ok_iff (fs : VFields) :
    (∃ kvs, marshalVFields fs = .ok kvs) ↔ serializableVFields fs = true := by
  cases fs with
  | nil => simp [marshalVFields, serializableVFields]
  | cons k v r =>
    rw [show serializableVFields (.cons k v r) = (serializableValue v && serializableVFields r)
        from rfl,
      Bool.and_eq_true, ← marshalValue_ok_iff v, ← marshalVFields_ok_iff r]
    cases h1 : marshalValue v <;> cases h2 : marshalVFields r <;>
      simp [marshalVFields, h1, h2]
end

/-- C9: the `json` extension returns the JSON serialization of its argument
and fails with a serialization error exactly when the value is not
serializable; string values serialize with their surrounding quotes, and
`json .` on the input map a=1 renders the standalone JSON object text. -/
theorem jsonFunc_spec :
    (∀ v : Value, (∃ s, jsonFunc v = .ok s) ↔ serializableValue v = true) ∧
    (∀ v : Value, (∃ g, jsonFunc v = .err (.serializationErr g)) ↔
      serializableValue v = false) ∧
    (∀ s, jsonFunc (.vStr s) = .ok (jsonQuote s)) ∧
    (∀ s, ∃ mid, jsonQuote s = String.mk ('"' :: mid ++ ['"'])) ∧
    Build c9Builder = .ok c9Template ∧
    c9Template.Execute 1 "" "doc.tmpl" (.vMap (.cons "a" (.vNum 1) .nil)) =
      (none, "\x7b\"a\":1\x7d") := by
  have hok : ∀ v : Value, (∃ s, jsonFunc v = .ok s) ↔ serializableValue v = true := by
    intro v
    rw [← marshalValue_ok_iff v]
    cases h : marshalValue v <;> simp [jsonFunc, h]
  refine ⟨hok, ?_, fun s => rfl, fun s => ⟨_, rfl⟩, rfl, rfl⟩
  intro v
  rw [show (serializableValue v = false) ↔ ¬ serializableValue v = true from by simp,
    ← hok v]
  cases h : marshalValue v <;> simp [jsonFunc, h]

mutual
theorem walkPaths_mem (e : FSEntry) (p : List String) :
    p ∈ walkPaths e ↔ ReachesFile e p := by
  cases e with
  | file c =>
    constructor
    · intro h
      simp only [walkPaths, List.mem_singleton] at h
      subst h
      exact .file c
    · intro h
      cases h
      simp [walkPaths]
  | dir l => exact walkPathsList_mem l p

theorem walkPathsList_mem (l : FSList) (p : List String) :
    p ∈ walkPathsList l ↔ ReachesFile (.dir l) p := by
  cases l with
  | nil =>
    simp only [walkPathsList, List.not_mem_nil, false_iff]
    intro h
    cases h with
    | dir _ n e q hm hr => exact hm
  | cons n e r =>
    constructor
    · intro h
      rw [walkPathsList] at h
      rcases List.mem_append.mp h with h1 | h2
      · rcases List.mem_map.mp h1 with ⟨q, hq, rfl⟩
        exact .dir _ n e q (Or.inl ⟨rfl, rfl⟩) ((walkPaths_mem e q).mp hq)
      · have h3 := (walkPathsList_mem r p).mp h2
        cases h3 with
        | dir _ m e2 q hm hr2 => exact .dir _ m e2 q (Or.inr hm) hr2
    · intro h
      cases h with
      | dir _ m e2 q hm hr2 =>
        have hm' : (m = n ∧ e2 = e) ∨ entryMem m e2 r := hm
        rw [walkPathsList]
        apply List.mem_append.mpr
        rcases hm' with ⟨rfl, rfl⟩ | hm2
        · exact Or.inl (List.mem_map.mpr ⟨q, (walkPaths_mem e2 q).mpr hr2, rfl⟩)
        · exact Or.inr ((walkPathsList_mem r (m :: q)).mpr (.dir _ m e2 q hm2 hr2))
end

theorem walkPathsList_head (l : FSList) (p : List String) (hp : p ∈ walkPathsList l) :
    ∃ n q, p = n :: q ∧ memName n l = true := by
  cases l with
  | nil => simp [walkPathsList] at hp
  | cons n e r =>
    rw [walkPathsList] at hp
    rcases List.mem_append.mp hp with h1 | h2
    · rcases List.mem_map.mp h1 with ⟨q, hq, rfl⟩
      exact ⟨n, q, rfl, by simp [memName]⟩
    · obtain ⟨m, q, rfl, hm⟩ := walkPathsList_head r p h2
      exact ⟨m, q, rfl, by simp [memName, hm]⟩

theorem wfList_cons (n : String) (e : FSEntry) (r : FSList)
    (h : wfList (.cons n e r) = true) :
    wfNameB n = true ∧ memName n r = false ∧ wfEntry e = true ∧ wfList r = true := by
  rw [wfList] at h
  simp only [Bool.and_eq_true, Bool.not_eq_true'] at h
  exact ⟨h.1.1.1, h.1.1.2, h.1.2, h.2⟩

mutual
theorem walkPaths_nodup (e : FSEntry) (he : wfEntry e = true) : (walkPaths e).Nodup := by
  cases e with
  | file c => simp [walkPaths]
  | dir l =>
    rw [walkPaths]
    exact walkPathsList_nodup l (by rw [wfEntry] at he; exact he)

theorem walkPathsList_nodup (l : FSList) (hl : wfList l = true) :
    (walkPathsList l).Nodup := by
  cases l with
  | nil => simp [walkPathsList]
  | cons n e r =>
    obtain ⟨hn, hmem, he, hr⟩ := wfList_cons n e r hl
    rw [walkPathsList]
    apply List.Nodup.append
    · exact (walkPaths_nodup e he).map (fun a b hab => by injection hab)
    · exact walkPathsList_nodup r hr
    · intro p hp1 hp2
      rcases List.mem_map.mp hp1 with ⟨q, hq, rfl⟩
      obtain ⟨m, q2, heq, hm⟩ := walkPathsList_head r _ hp2
      injection heq with h1 h2
      rw [← h1] at hm
      rw [hm] at hmem
      cases hmem
end

mutual
theorem walkPaths_wfName (e : FSEntry) (p : List String) (he : wfEntry e = true)
    (hp : p ∈ walkPaths e) : ∀ c ∈ p, wfNameB c = true := by
  cases e with
  | file c =>
    simp only [walkPaths, List.mem_singleton] at hp
    subst hp
    intro c2 hc2
    cases hc2
  | dir l =>
    rw [walkPaths] at hp
    exact walkPathsList_wfName l p (by rw [wfEntry] at he; exact he) hp

theorem walkPathsList_wfName (l : FSList) (p : List String) (hl : wfList l = true)
    (hp : p ∈ walkPathsList l) : ∀ c ∈ p, wfNameB c = true := by
  cases l with
  | nil => simp [walkPathsList] at hp
  | cons n e r =>
    obtain ⟨hn, hmem, he, hr⟩ := wfList_cons n e r hl
    rw [walkPathsList] at hp
    rcases List.mem_append.mp hp with h1 | h2
    · rcases List.mem_map.mp h1 with ⟨q, hq, rfl⟩
      intro c hc
      rcases List.mem_cons.mp hc with rfl | hc2
      · exact hn
      · exact walkPaths_wfName e q he hq c hc2
    · exact walkPathsList_wfName r p hr h2
end

theorem split_slash : ∀ (l1 l2 t1 t2 : List Char), '/' ∉ l1 → '/' ∉ l2 →
    l1 ++ '/' :: t1 = l2 ++ '/' :: t2 → l1 = l2 ∧ t1 = t2
  | [], [], t1, t2, _, _, h => by
    simp only [List.nil_append, List.cons.injEq] at h
    exact ⟨rfl, h.2⟩
  | [], c :: l2, t1, t2, h1, h2, h => by
    simp only [List.nil_append, List.cons_append, List.cons.injEq] at h
    exact absurd (by rw [h.1]; exact List.mem_cons_self c l2) h2
  | c :: l1, [], t1, t2, h1, h2, h => by
    simp only [List.nil_append, List.cons_append, List.cons.injEq] at h
    exact absurd (by rw [← h.1]; exact List.mem_cons_self c l1) h1
  | c :: l1, d :: l2, t1, t2, h1, h2, h => by
    simp only [List.cons_append, List.cons.injEq] at h
    obtain ⟨h3, h4⟩ := split_slash l1 l2 t1 t2
      (fun hm => h1 (List.mem_cons_of_mem c hm)) (fun hm => h2 (List.mem_cons_of_mem d hm)) h.2
    exact ⟨by rw [h.1, h3], h4⟩

theorem wfNameB_props (n : String) (h : wfNameB n = true) :
    n ≠ "" ∧ n ≠ "." ∧ '/' ∉ n.data := by
  unfold wfNameB at h
  simp only [Bool.and_eq_true, decide_eq_true_eq] at h
  exact ⟨h.1.1, h.1.2, h.2⟩

theorem str_data_inj (s t : String) (h : s.data = t.data) : s = t := by
  cases s
  cases t
  exact congrArg String.mk h

theorem joinPath_inj : ∀ (p q : List String), (∀ c ∈ p, wfNameB c = true) →
    (∀ c ∈ q, wfNameB c = true) → joinPath p = joinPath q → p = q
  | [], [], _, _, _ => rfl
  | [], [c], _, hq, h => by
    exact absurd h.symm (wfNameB_props c (hq c (by simp))).2.1
  | [c], [], hp, _, h => by
    exact absurd h (wfNameB_props c (hp c (by simp))).2.1
  | [], c :: d :: r, _, hq, h => by
    have hdata : ("." : String).data = (joinPath (c :: d :: r)).data := congrArg String.data h
    rw [show joinPath (c :: d :: r) = c ++ "/" ++ joinPath (d :: r) from rfl,
      String.data_append, String.data_append] at hdata
    have : '/' ∈ ("." : String).data := by
      rw [hdata]
      exact List.mem_append.mpr (Or.inl (List.mem_append.mpr (Or.inr (by simp))))
    simp at this
  | c :: d :: r, [], hp, _, h => by
    have hdata : (joinPath (c :: d :: r)).data = ("." : String).data := congrArg String.data h
    rw [show joinPath (c :: d :: r) = c ++ "/" ++ joinPath (d :: r) from rfl,
      String.data_append, String.data_append] at hdata
    have : '/' ∈ ("." : String).data := by
      rw [← hdata]
      exact List.mem_append.mpr (Or.inl (List.mem_append.mpr (Or.inr (by simp))))
    simp at this
  | [c], [d], hp, hq, h => by
    have hc : c = d := h
    rw [hc]
  | [c], d :: e :: r, hp, hq, h => by
    have hdata : c.data = (joinPath (d :: e :: r)).data := congrArg String.data h
    rw [show joinPath (d :: e :: r) = d ++ "/" ++ joinPath (e :: r) from rfl,
      String.data_append, String.data_append] at hdata
    have : '/' ∈ c.data := by
      rw [hdata]
      exact List.mem_append.mpr (Or.inl (List.mem_append.mpr (Or.inr (by simp))))
    exact absurd this (wfNameB_props c (hp c (by simp))).2.2
  | c :: d :: r, [e], hp, hq, h => by
    have hdata : (joinPath (c :: d :: r)).data = e.data := congrArg String.data h
    rw [show joinPath (c :: d :: r) = c ++ "/" ++ joinPath (d :: r) from rfl,
      String.data_append, String.data_append] at hdata
    have : '/' ∈ e.data := by
      rw [← hdata]
      exact List.mem_append.mpr (Or.inl (List.mem_append.mpr (Or.inr (by simp))))
    exact absurd this (wfNameB_props e (hq e (by simp))).2.2
  | c :: d :: r, e :: f :: s, hp, hq, h => by
    have hdata := congrArg String.data h
    rw [show joinPath (c :: d :: r) = c ++ "/" ++ joinPath (d :: r) from rfl,
      show joinPath (e :: f :: s) = e ++ "/" ++ joinPath (f :: s) from rfl,
      String.data_append, String.data_append, String.data_append, String.data_append,
      List.append_assoc, List.append_assoc] at hdata
    have hsplit := split_slash c.data e.data _ _
      (wfNameB_props c (hp c (by simp))).2.2 (wfNameB_props e (hq e (by simp))).2.2
      (by simpa using hdata)
    have hc : c = e := str_data_inj c e hsplit.1
    have htail : joinPath (d :: r) = joinPath (f :: s) :=
      str_data_inj _ _ hsplit.2
    have hrec := joinPath_inj (d :: r) (f :: s)
      (fun x hx => hp x (List.mem_cons_of_mem c hx))
      (fun x hx => hq x (List.mem_cons_of_mem e hx)) htail
    rw [hc, hrec]

theorem hread_halloc_old (h : SliceHeap) (xs : List String) (r : Nat)
    (hr : r < h.cells.length) : hread (halloc h xs).1 r = hread h r := by
  simp only [hread, halloc]
  rw [List.getD_append _ _ _ _ hr]

theorem hread_halloc_new (h : SliceHeap) (xs : List String) :
    hread (halloc h xs).1 (halloc h xs).2 = xs := by
  simp only [hread, halloc]
  rw [List.getD_append_right _ _ _ _ (Nat.le_refl _)]
  simp

theorem hread_hwrite_ne (h : SliceHeap) (r1 r2 : Nat) (xs : List String) (hne : r1 ≠ r2) :
    hread (hwrite h r1 xs) r2 = hread h r2 := by
  simp only [hread, hwrite]
  rw [List.getD_eq_getElem?_getD, List.getD_eq_getElem?_getD, List.getElem?_set_ne hne]

/-- C4: after a successful build over a wellformed (narrowed) source root,
`Names` returns exactly the walk of that root: its elements are precisely
the joined component paths of the reachable regular files, there are no
duplicates, the order is the deterministic discovery order, the copy equals
the stored names, and — at the slice-heap level — the returned snapshot is
a fresh backing array: overwriting it never affects the template's own
array nor what a later `Names` call returns. -/
theorem names_spec (b : TemplateBuilder) (t : Template) (f fsys : FSEntry)
    (hb : Build b = .ok t) (hf : b.fsys = some f) (hnav : navigate f b.dir = some fsys)
    (hwf : wfEntry fsys = true) :
    t.Names = (walkPaths fsys).map joinPath ∧
    (∀ s, s ∈ t.Names ↔ ∃ p, ReachesFile fsys p ∧ s = joinPath p) ∧
    t.Names.Nodup ∧
    t.Names = t.names ∧
    (∀ (h : SliceHeap) (tref : Nat), tref < h.cells.length →
      hread (namesAlloc h tref).1 (namesAlloc h tref).2 = hread h tref ∧
      (namesAlloc h tref).2 ≠ tref ∧
      (∀ ys, hread (hwrite (namesAlloc h tref).1 (namesAlloc h tref).2 ys) tref = hread h tref ∧
        hread (namesAlloc (hwrite (namesAlloc h tref).1 (namesAlloc h tref).2 ys) tref).1
              (namesAlloc (hwrite (namesAlloc h tref).1 (namesAlloc h tref).2 ys) tref).2
          = hread h tref)) := by
  obtain ⟨f2, fsys2, hf2, hnav2, hlg, hnames, hpf⟩ := Build_ok_parts b t hb
  rw [hf] at hf2
  injection hf2 with hf2
  subst hf2
  rw [hnav] at hnav2
  injection hnav2 with hnav2
  subst hnav2
  have hN : t.Names = (walkPaths fsys).map joinPath := by
    rw [Template.Names, cloneList_eq, hnames]
  refine ⟨hN, ?_, ?_, by rw [Template.Names, cloneList_eq], ?_⟩
  · intro s
    rw [hN]
    constructor
    · intro hs
      rcases List.mem_map.mp hs with ⟨p, hp, rfl⟩
      exact ⟨p, (walkPaths_mem fsys p).mp hp, rfl⟩
    · rintro ⟨p, hp, rfl⟩
      exact List.mem_map.mpr ⟨p, (walkPaths_mem fsys p).mpr hp, rfl⟩
  · rw [hN]
    exact (walkPaths_nodup fsys hwf).map_on
      (fun p hp q hq hpq =>
        joinPath_inj p q (walkPaths_wfName fsys p hwf hp) (walkPaths_wfName fsys q hwf hq) hpq)
  · intro h tref htref
    have hnew : (namesAlloc h tref).2 = h.cells.length := rfl
    have hne : (namesAlloc h tref).2 ≠ tref := by omega
    have hfst : hread (namesAlloc h tref).1 (namesAlloc h tref).2 = hread h tref := by
      rw [show namesAlloc h tref = halloc h (cloneList (hread h tref)) from rfl]
      rw [hread_halloc_new, cloneList_eq]
    refine ⟨hfst, hne, ?_⟩
    intro ys
    have hunchanged :
        hread (hwrite (namesAlloc h tref).1 (namesAlloc h tref).2 ys) tref = hread h tref := by
      rw [hread_hwrite_ne _ _ _ _ hne]
      rw [show (namesAlloc h tref).1 = (halloc h (cloneList (hread h tref))).1 from rfl]
      exact hread_halloc_old h _ tref htref
    refine ⟨hunchanged, ?_⟩
    rw [show namesAlloc (hwrite (namesAlloc h tref).1 (namesAlloc h tref).2 ys) tref =
      halloc (hwrite (namesAlloc h tref).1 (namesAlloc h tref).2 ys)
        (cloneList (hread (hwrite (namesAlloc h tref).1 (namesAlloc h tref).2 ys) tref))
      from rfl]
    rw [hread_halloc_new, cloneList_eq, hunchanged]

/-- Witness for C4: the nested tree `c4Tree` yields exactly the three
relative paths in discovery order, duplicate-free, and the reachability
characterisation holds at "a/x.tmpl". -/
theorem names_spec_witness :
    c4Template.Names = ["a/x.tmpl", "a/y.tmpl", "b.tmpl"] ∧
    ("a/x.tmpl" ∈ c4Template.Names ↔ ∃ p, ReachesFile c4Tree p ∧ "a/x.tmpl" = joinPath p) ∧
    c4Template.Names.Nodup :=
  ⟨((names_spec c4Builder c4Template c4Tree c4Tree rfl rfl rfl (by decide)).1).trans (by decide),
   (names_spec c4Builder c4Template c4Tree c4Tree rfl rfl rfl (by decide)).2.1 "a/x.tmpl",
   (names_spec c4Builder c4Template c4Tree c4Tree rfl rfl rfl (by decide)).2.2.1⟩

end ZtpTemplate
